import Mathlib

/-!
Verification of the Vulkan window/swapchain module (`src/backend/vulkan/src/window.rs`)
of the gfx hardware-abstraction layer.

The development shallowly embeds the surface/swapchain state machine:

* Vulkan handles (swapchains, fences, semaphores, image views) are modelled as
  natural-number identifiers allocated from a monotone counter.
* `Arc<Vec<ImageView>>` (the shared, reference-counted view set) is modelled by
  a view-set identifier together with a store mapping identifiers to the
  current contents of the shared vector; the reference count of a view set is
  recovered by counting the places that hold the identifier (the active
  configuration, stale-pool entries, and outstanding `SurfaceImage`s), which is
  exactly what `Arc::get_mut` observes (there are no weak references in the
  source).
* Driver calls (`vkAcquireNextImageKHR`, `vkCreateSwapchainKHR`,
  `vkWaitForFences`, the surface property queries) are oracles: their results
  are inputs to the embedded operations.
* Rust panics (`unwrap`, `unreachable!`, `panic!`, out-of-bounds indexing) are
  modelled as an explicit fatal outcome / `Option.none`.
* `vk::Result` is an `i32` newtype in ash; it is modelled as `Int` with the
  named constants used by the source's match arms.
-/

/-! ## Vulkan status codes (ash `vk::Result` values used by the source) -/

namespace vkr

def SUCCESS : Int := 0

def NOT_READY : Int := 1

def TIMEOUT : Int := 2

def ERROR_OUT_OF_HOST_MEMORY : Int := -1

def ERROR_OUT_OF_DEVICE_MEMORY : Int := -2

def ERROR_DEVICE_LOST : Int := -4

def ERROR_SURFACE_LOST_KHR : Int := -1000000000

def ERROR_OUT_OF_DATE_KHR : Int := -1000001004

end vkr

/-! ## hal error types (`hal::AcquireError` and friends) -/

/-- Mirrors `hal::device::OutOfMemory`. -/
inductive OutOfMemory where
  | OutOfHostMemory
  | OutOfDeviceMemory
deriving DecidableEq, Repr

/-- Mirrors `hal::AcquireError`. -/
inductive AcquireError where
  | NotReady
  | Timeout
  | OutOfDate
  | SurfaceLost
  | OutOfMemory (source : OutOfMemory)
  | DeviceLost
deriving DecidableEq, Repr

/-- Mirrors `hal::window::Suboptimal`. -/
inductive Suboptimal where
  | mk
deriving DecidableEq, Repr

/-- The error arms of the `match` in `Surface::acquire_image`
(window.rs lines 562-577): translation of the `vk::Result` error code returned
by `wait_for_fences` into a `hal::AcquireError`.  `none` is the final
`_ => unreachable!()` arm. -/
def waitErrorMap (c : Int) : Option AcquireError :=
  if c = vkr.NOT_READY then some .NotReady
  else if c = vkr.TIMEOUT then some .Timeout
  else if c = vkr.ERROR_OUT_OF_DATE_KHR then some .OutOfDate
  else if c = vkr.ERROR_SURFACE_LOST_KHR then some .SurfaceLost
  else if c = vkr.ERROR_OUT_OF_HOST_MEMORY then some (.OutOfMemory .OutOfHostMemory)
  else if c = vkr.ERROR_OUT_OF_DEVICE_MEMORY then some (.OutOfMemory .OutOfDeviceMemory)
  else if c = vkr.ERROR_DEVICE_LOST then some .DeviceLost
  else none

namespace Swapchain

/-- Embeds `Swapchain::acquire_image` (window.rs lines 592-631).
`driverResult` is the outcome of the driver call
`self.functor.acquire_next_image(..)`: either `(index, suboptimal)` or a
`vk::Result` error code.  The outer `Option` models the final
`_ => panic!("Failed to acquire image.")` arm (`none` = panic); the embedded
`Except` is the returned `Result`. -/
def acquireImage (driverResult : Except Int (Nat × Bool)) :
    Option (Except AcquireError (Nat × Option Suboptimal)) :=
  match driverResult with
  | .ok (i, suboptimal) =>
    if suboptimal then some (.ok (i, some .mk)) else some (.ok (i, none))
  | .error c =>
    if c = vkr.NOT_READY then some (.error .NotReady)
    else if c = vkr.TIMEOUT then some (.error .Timeout)
    else if c = vkr.ERROR_OUT_OF_DATE_KHR then some (.error .OutOfDate)
    else if c = vkr.ERROR_SURFACE_LOST_KHR then some (.error .SurfaceLost)
    else if c = vkr.ERROR_OUT_OF_HOST_MEMORY then
      some (.error (.OutOfMemory .OutOfHostMemory))
    else if c = vkr.ERROR_OUT_OF_DEVICE_MEMORY then
      some (.error (.OutOfMemory .OutOfDeviceMemory))
    else if c = vkr.ERROR_DEVICE_LOST then some (.error .DeviceLost)
    else none

end Swapchain

/-- The status-to-outcome translation table as the specification enumerates it,
used to state that the source's match arms realise exactly this table. -/
def acquireStatusTable : List (Int × AcquireError) :=
  [ (vkr.NOT_READY, .NotReady)
  , (vkr.TIMEOUT, .Timeout)
  , (vkr.ERROR_OUT_OF_DATE_KHR, .OutOfDate)
  , (vkr.ERROR_SURFACE_LOST_KHR, .SurfaceLost)
  , (vkr.ERROR_OUT_OF_HOST_MEMORY, .OutOfMemory .OutOfHostMemory)
  , (vkr.ERROR_OUT_OF_DEVICE_MEMORY, .OutOfMemory .OutOfDeviceMemory)
  , (vkr.ERROR_DEVICE_LOST, .DeviceLost) ]

/-! ## u64 arithmetic of the acquire timeout -/

/-- One past the largest `u64` value. -/
def UMAX64 : Nat := 2 ^ 64

/-- Release-mode semantics of `timeout_ns -= moment.elapsed().as_nanos() as u64`
(window.rs line 550): wrapping subtraction on `u64`. -/
def wrapSub64 (a b : Nat) : Nat :=
  (a + UMAX64 - b % UMAX64) % UMAX64

/-! ## The surface state machine -/

/-- One entry of `Surface::stale_views`: the `(Arc<RawDevice>, Semaphore,
Arc<Vec<ImageView>>)` tuple pushed by `configure_swapchain`.  The view set is
referred to by its identifier into the view store. -/
structure StaleEntry where
  dev : Nat
  sem : Nat
  viewsId : Nat
deriving DecidableEq, Repr

/-- Mirrors `SurfaceImage`: the acquired index plus the image's own shared
handle (`Arc<Vec<ImageView>>`) to the view set active at acquisition time. -/
structure SurfaceImage where
  index : Nat
  viewsId : Nat
deriving DecidableEq, Repr

/-- Mirrors `SurfaceSwapchain`: the active configuration (raw swapchain handle,
device, fence, semaphore, view set).  `fenceCreatedSignaled` records the
argument passed to `device.create_fence(..)` at creation. -/
structure SurfaceSwapchain where
  swapchain : Nat
  dev : Nat
  fence : Nat
  fenceCreatedSignaled : Bool
  semaphore : Nat
  viewsId : Nat
deriving DecidableEq, Repr

/-- The observable state of a `Surface` together with the environment the
lifetime claims range over: the outstanding caller-held `SurfaceImage`s, the
contents of every shared view vector, and the log of handles destroyed so far.
`fresh` is the allocator for new handle identifiers. -/
structure WorldState where
  active : Option SurfaceSwapchain
  staleViews : List StaleEntry
  images : List SurfaceImage
  viewStore : List (Nat × List Nat)
  destroyedViews : List Nat
  destroyedSems : List Nat
  destroyedFences : List Nat
  fresh : Nat
deriving DecidableEq, Repr

/-- Contents of the shared view vector with identifier `id` (empty when the
identifier is unknown; a drained `Vec` is the empty list). -/
def storeOf (store : List (Nat × List Nat)) (id : Nat) : List Nat :=
  match store.find? (fun p => p.1 == id) with
  | some p => p.2
  | none => []

/-- Overwrite the contents of the shared view vector `id`. -/
def setStore (store : List (Nat × List Nat)) (id : Nat) (v : List Nat) :
    List (Nat × List Nat) :=
  store.map (fun p => if p.1 == id then (p.1, v) else p)

/-- The strong count of the `Arc` behind view set `id`: one share for the
active configuration if it holds `id`, one for each stale-pool entry holding
`id`, one for each outstanding `SurfaceImage` holding `id`.
`Arc::get_mut` on a stale entry's share succeeds exactly when this count is 1
(the entry itself being the only holder; the source creates no weak refs). -/
def refCount (s : WorldState) (id : Nat) : Nat :=
  (match s.active with
   | some ssc => if ssc.viewsId = id then 1 else 0
   | none => 0)
  + s.staleViews.countP (fun e => e.viewsId == id)
  + s.images.countP (fun i => i.viewsId == id)

/-- The body of the loop in `Surface::clear_stale_views` (window.rs lines
44-53) for a single stale entry: when `Arc::get_mut` succeeds (strong count 1)
the semaphore is destroyed and every view is drained out of the shared vector
and destroyed. -/
def sweepOne (s : WorldState) (e : StaleEntry) : WorldState :=
  if refCount s e.viewsId = 1 then
    { s with
      destroyedSems := e.sem :: s.destroyedSems
      destroyedViews := storeOf s.viewStore e.viewsId ++ s.destroyedViews
      viewStore := setStore s.viewStore e.viewsId [] }
  else s

/-- Embeds `Surface::clear_stale_views` (window.rs lines 42-55): the loop over
`stale_views` followed by `retain(|sv| !sv.2.is_empty())`. -/
def clearStaleViews (s : WorldState) : WorldState :=
  let s1 := s.staleViews.foldl sweepOne s
  { s1 with
    staleViews := s1.staleViews.filter (fun e => !(storeOf s1.viewStore e.viewsId).isEmpty) }

/-- Driver/environment inputs of one `configure_swapchain` call: the device
argument, whether `device.create_swapchain` succeeds, and how many images the
new chain exposes on success. -/
structure ConfigOracle where
  dev : Nat
  ok : Bool
  imageCount : Nat
deriving DecidableEq, Repr

/-- Result of `configure_swapchain`: the new state, whether the call returned
`Ok`, and the `old` swapchain handle passed to `device.create_swapchain` as
the driver's reuse hint. -/
structure ConfigureResult where
  state : WorldState
  success : Bool
  oldHint : Option Nat
deriving DecidableEq, Repr

/-- Embeds `Surface::configure_swapchain` (window.rs lines 480-523).
If an active configuration exists it is taken out: its fence is destroyed
synchronously, its `(device, semaphore, views)` tuple is pushed onto
`stale_views`, and its raw swapchain becomes the `old` reuse hint.  Then
`device.create_swapchain` runs (oracle `o.ok`); on failure the `?` operator
returns early with `self.swapchain == None`.  On success a new
`SurfaceSwapchain` is installed with a fresh swapchain handle, a fresh fence
created unsignaled (`create_fence(false)`), a fresh semaphore, and an eagerly
created view per image. -/
def configureSwapchain (s : WorldState) (o : ConfigOracle) : ConfigureResult :=
  let taken : WorldState × Option Nat :=
    match s.active with
    | some ssc =>
      ({ s with
         active := none
         destroyedFences := ssc.fence :: s.destroyedFences
         staleViews := s.staleViews ++ [⟨ssc.dev, ssc.semaphore, ssc.viewsId⟩] }
       , some ssc.swapchain)
    | none => ({ s with active := none }, none)
  let s1 := taken.1
  if o.ok then
    let vId := s1.fresh + 3
    let vs := (List.range o.imageCount).map (fun i => s1.fresh + 4 + i)
    { state :=
        { s1 with
          active := some
            { swapchain := s1.fresh
              dev := o.dev
              fence := s1.fresh + 1
              fenceCreatedSignaled := false
              semaphore := s1.fresh + 2
              viewsId := vId }
          viewStore := (vId, vs) :: s1.viewStore
          fresh := s1.fresh + 4 + o.imageCount }
      success := true
      oldHint := taken.2 }
  else
    { state := s1, success := false, oldHint := taken.2 }

/-- Driver/environment inputs of one `Surface::acquire_image` call: the result
of the driver's next-image request, the wall-clock nanoseconds it consumed
(`moment.elapsed()`), and the result of the fence wait. -/
structure AcquireOracle where
  driverResult : Except Int (Nat × Bool)
  elapsedNs : Nat
  waitResult : Except Int Unit
deriving Repr

/-- Outcome of one `Surface::acquire_image` call.  `fatal` covers the panics:
`self.swapchain.as_mut().unwrap()` with no active configuration, and the
unrecognized-status arms. -/
inductive AcquireOutcome where
  | ok (img : SurfaceImage) (suboptimal : Option Suboptimal)
  | err (e : AcquireError)
  | fatal
deriving DecidableEq, Repr

/-- Result of `Surface::acquire_image`: the state afterwards, the outcome, and
the timeout actually handed to `wait_for_fences` (`none` when control never
reaches the fence wait). -/
structure AcquireResult where
  state : WorldState
  outcome : AcquireOutcome
  waitBudget : Option Nat
deriving DecidableEq, Repr

namespace Surface

/-- Embeds `Surface::acquire_image` (window.rs lines 538-579):
(1) `self.clear_stale_views()`; (2) `self.swapchain.as_mut().unwrap()`
(panic when unconfigured); (3) the driver next-image request through
`Swapchain::acquire_image`, whose error is propagated by `?`;
(4) `timeout_ns -= moment.elapsed()` (u64 wrapping subtraction in release
mode); (5) `wait_for_fences` with the remaining budget, its outcome classified
by the match arms; on success the returned `SurfaceImage` clones the active
configuration's view-set handle and joins the caller's outstanding images. -/
def acquireImage (s0 : WorldState) (timeoutNs : Nat) (o : AcquireOracle) :
    AcquireResult :=
  let s := clearStaleViews s0
  match s.active with
  | none => ⟨s, .fatal, none⟩
  | some ssc =>
    match Swapchain.acquireImage o.driverResult with
    | none => ⟨s, .fatal, none⟩
    | some (.error e) => ⟨s, .err e, none⟩
    | some (.ok (i, suboptimal)) =>
      let budget := wrapSub64 timeoutNs o.elapsedNs
      match o.waitResult with
      | .ok _ =>
        let img : SurfaceImage := ⟨i, ssc.viewsId⟩
        ⟨{ s with images := img :: s.images }, .ok img suboptimal, some budget⟩
      | .error c =>
        match waitErrorMap c with
        | some e => ⟨s, .err e, some budget⟩
        | none => ⟨s, .fatal, some budget⟩

end Surface

/-- The caller drops an outstanding `SurfaceImage`, releasing its share of the
view set. -/
def dropImage (s : WorldState) (img : SurfaceImage) : WorldState :=
  { s with images := s.images.erase img }

/-- Embeds `<SurfaceImage as Borrow<native::ImageView>>::borrow`
(window.rs lines 470-474): `&self.views[self.index as usize]`; `none` is the
out-of-bounds panic. -/
def SurfaceImage.borrowView (store : List (Nat × List Nat)) (img : SurfaceImage) :
    Option Nat :=
  (storeOf store img.viewsId).get? img.index

/-- The operations a caller can interleave on one surface: reconfigure,
acquire (each with arbitrary driver behaviour), and dropping a held image. -/
inductive SurfaceStep : WorldState → WorldState → Prop where
  | configure (s : WorldState) (o : ConfigOracle) :
      SurfaceStep s (configureSwapchain s o).state
  | acquire (s : WorldState) (t : Nat) (o : AcquireOracle) :
      SurfaceStep s (Surface.acquireImage s t o).state
  | drop (s : WorldState) (img : SurfaceImage) (h : img ∈ s.images) :
      SurfaceStep s (dropImage s img)

/-- The state of a freshly created surface (`create_surface_from_vk_surface_khr`):
no active configuration, no stale entries, nothing held, nothing destroyed. -/
def initState : WorldState :=
  { active := none
    staleViews := []
    images := []
    viewStore := []
    destroyedViews := []
    destroyedSems := []
    destroyedFences := []
    fresh := 0 }

/-- States reachable from a freshly created surface. -/
def Reachable (s : WorldState) : Prop :=
  Relation.ReflTransGen SurfaceStep initState s

/-- A step during which the caller keeps holding `img`. -/
def StepHolding (img : SurfaceImage) (a b : WorldState) : Prop :=
  SurfaceStep a b ∧ img ∈ a.images ∧ img ∈ b.images

/-! ## The capability query (`Surface::compatibility`, window.rs lines 365-451) -/

/-- The all-ones `u32` (`!0` in the source). -/
def U32MAX : Nat := 2 ^ 32 - 1

/-- ash `vk::Format::UNDEFINED`. -/
def VK_FORMAT_UNDEFINED : Int := 0

/-- The fields of ash `vk::SurfaceCapabilitiesKHR` that
`Surface::compatibility` reads (all `u32`-valued). -/
structure VkSurfaceCapabilities where
  min_image_count : Nat
  max_image_count : Nat
  current_extent_width : Nat
  current_extent_height : Nat
  min_extent_width : Nat
  min_extent_height : Nat
  max_extent_width : Nat
  max_extent_height : Nat
  max_image_array_layers : Nat
deriving DecidableEq, Repr

/-- The fields of `hal::SurfaceCapabilities` that this module computes
directly.  `usage` and `composite_alpha` are filled through `conv::map_*`
helpers that live outside the window module; they are independent of every
claim and are omitted here. -/
structure SurfaceCapabilities where
  imageCountMin : Nat
  imageCountMax : Nat
  currentExtent : Option (Nat × Nat)
  extentMin : Nat × Nat
  extentMax : Nat × Nat
  maxImageLayers : Nat
deriving DecidableEq, Repr

/-- The capability-record computation of `Surface::compatibility`
(window.rs lines 374-416): a `max_image_count` of 0 means unlimited and is
reported as `!0`; a current extent of all-ones means the extent is determined
by the swapchain and is reported as `None`. -/
def compatibilityCaps (caps : VkSurfaceCapabilities) : SurfaceCapabilities :=
  { imageCountMin := caps.min_image_count
    imageCountMax := if caps.max_image_count = 0 then U32MAX else caps.max_image_count
    currentExtent :=
      if caps.current_extent_width ≠ U32MAX ∧ caps.current_extent_height ≠ U32MAX then
        some (caps.current_extent_width, caps.current_extent_height)
      else none
    extentMin := (caps.min_extent_width, caps.min_extent_height)
    extentMax := (caps.max_extent_width, caps.max_extent_height)
    maxImageLayers := caps.max_image_array_layers }

/-- The format-list computation of `Surface::compatibility`
(window.rs lines 419-437).  `formats` is the list of `vk::Format` values
reported by the driver; `convMap` is `conv::map_vk_format` (defined outside
this module, hence a parameter).  The source indexes `formats[0]` unguarded:
`none` models that out-of-bounds panic.  A first entry of
`vk::Format::UNDEFINED` means "no preferred format", reported as `None`. -/
def compatibilityFormats (convMap : Int → Option Int) (formats : List Int) :
    Option (Option (List Int)) :=
  match formats.get? 0 with
  | none => none
  | some f0 =>
    if f0 = VK_FORMAT_UNDEFINED then some none
    else some (some (formats.filterMap convMap))

/-- Embeds `Surface::compatibility` (window.rs lines 365-451), with the three
driver property queries already resolved to their results (`caps`, `formats`,
`modes`) and the `conv` helpers as parameters.  The result is `none` when the
function panics (empty format list). -/
def compatibility (convMap : Int → Option Int) (convMode : Int → Int)
    (caps : VkSurfaceCapabilities) (formats : List Int) (modes : List Int) :
    Option (SurfaceCapabilities × Option (List Int) × List Int) :=
  match compatibilityFormats convMap formats with
  | none => none
  | some fs => some (compatibilityCaps caps, fs, modes.map convMode)

/-- The first phase of `configure_swapchain`: `self.swapchain.take()` plus the
synchronous fence destruction and the stale-pool push (proof-structuring
device; `configureSwapchain_state` relates it to the embedded function). -/
def takenState (s : WorldState) : WorldState :=
  match s.active with
  | some ssc =>
    { s with
      active := none
      destroyedFences := ssc.fence :: s.destroyedFences
      staleViews := s.staleViews ++ [⟨ssc.dev, ssc.semaphore, ssc.viewsId⟩] }
  | none => { s with active := none }

/-- The second phase of `configure_swapchain` on driver success: install the
new configuration with fresh handles and an eagerly created view set. -/
def installState (s1 : WorldState) (o : ConfigOracle) : WorldState :=
  { s1 with
    active := some
      { swapchain := s1.fresh
        dev := o.dev
        fence := s1.fresh + 1
        fenceCreatedSignaled := false
        semaphore := s1.fresh + 2
        viewsId := s1.fresh + 3 }
    viewStore :=
      (s1.fresh + 3, (List.range o.imageCount).map (fun i => s1.fresh + 4 + i))
        :: s1.viewStore
    fresh := s1.fresh + 4 + o.imageCount }

/-! ## Concrete example states (used by the witnesses) -/

def exConfig : ConfigOracle := { dev := 7, ok := true, imageCount := 2 }

def exState1 : WorldState := (configureSwapchain initState exConfig).state

def exAcqOracle : AcquireOracle :=
  { driverResult := .ok (0, false), elapsedNs := 10, waitResult := .ok () }

def exState2 : WorldState := (Surface.acquireImage exState1 100 exAcqOracle).state

def exConfig2 : ConfigOracle := { dev := 7, ok := true, imageCount := 3 }

def exState3 : WorldState := (configureSwapchain exState2 exConfig2).state

def exDropState : WorldState := dropImage exState3 ⟨0, 3⟩

def exFailConfig : ConfigOracle := { dev := 7, ok := false, imageCount := 0 }

def c4Oracle : AcquireOracle :=
  { driverResult := .ok (0, false), elapsedNs := 1, waitResult := .ok () }

def notReadyOracle : AcquireOracle :=
  { driverResult := .error vkr.NOT_READY, elapsedNs := 0, waitResult := .ok () }

def badStatusOracle : AcquireOracle :=
  { driverResult := .error 5, elapsedNs := 0, waitResult := .ok () }

def badWaitOracle : AcquireOracle :=
  { driverResult := .ok (0, false), elapsedNs := 0, waitResult := .error 5 }

def c2CexState : WorldState :=
  { active := none
    staleViews := [⟨0, 5, 7⟩]
    images := [⟨0, 7⟩]
    viewStore := [(7, [])]
    destroyedViews := []
    destroyedSems := []
    destroyedFences := []
    fresh := 8 }

def exCaps : VkSurfaceCapabilities :=
  { min_image_count := 2
    max_image_count := 0
    current_extent_width := 800
    current_extent_height := 600
    min_extent_width := 1
    min_extent_height := 1
    max_extent_width := 4096
    max_extent_height := 4096
    max_image_array_layers := 1 }

/-- Two states that agree on everything `refCount` reads. -/
def refEq (a b : WorldState) : Prop :=
  a.active = b.active ∧ a.staleViews = b.staleViews ∧ a.images = b.images

/-- Structural invariant of every reachable state: every identifier in play is
below the allocator, view vectors of distinct view sets are disjoint, and no
live view has been destroyed. -/
structure WF (s : WorldState) : Prop where
  storeKeyLt : ∀ p ∈ s.viewStore, p.1 < s.fresh
  storeViewLt : ∀ p ∈ s.viewStore, ∀ v ∈ p.2, v < s.fresh
  destroyedLt : ∀ v ∈ s.destroyedViews, v < s.fresh
  imageIdLt : ∀ img ∈ s.images, img.viewsId < s.fresh
  activeIdLt : ∀ ssc, s.active = some ssc → ssc.viewsId < s.fresh
  slotsDisjoint : ∀ p ∈ s.viewStore, ∀ q ∈ s.viewStore, p.1 ≠ q.1 →
    ∀ v ∈ p.2, v ∉ q.2
  liveNotDestroyed : ∀ p ∈ s.viewStore, ∀ v ∈ p.2, v ∉ s.destroyedViews

/-! ## Lemmas about the status-code translation -/

lemma waitErrorMap_some_iff (c : Int) (e : AcquireError) :
    waitErrorMap c = some e ↔ (c, e) ∈ acquireStatusTable := by
  simp only [waitErrorMap, acquireStatusTable, vkr.NOT_READY, vkr.TIMEOUT,
    vkr.ERROR_OUT_OF_DATE_KHR, vkr.ERROR_SURFACE_LOST_KHR,
    vkr.ERROR_OUT_OF_HOST_MEMORY, vkr.ERROR_OUT_OF_DEVICE_MEMORY,
    vkr.ERROR_DEVICE_LOST]
  split_ifs with h1 h2 h3 h4 h5 h6 h7 <;>
    simp_all [Prod.ext_iff, eq_comm]

lemma waitErrorMap_none_iff (c : Int) :
    waitErrorMap c = none ↔ ∀ p ∈ acquireStatusTable, c ≠ p.1 := by
  simp only [waitErrorMap, acquireStatusTable, vkr.NOT_READY, vkr.TIMEOUT,
    vkr.ERROR_OUT_OF_DATE_KHR, vkr.ERROR_SURFACE_LOST_KHR,
    vkr.ERROR_OUT_OF_HOST_MEMORY, vkr.ERROR_OUT_OF_DEVICE_MEMORY,
    vkr.ERROR_DEVICE_LOST]
  split_ifs with h1 h2 h3 h4 h5 h6 h7 <;> simp_all

lemma swapchain_acquire_error (c : Int) :
    Swapchain.acquireImage (Except.error c) = Option.map Except.error (waitErrorMap c) := by
  simp only [Swapchain.acquireImage, waitErrorMap]
  split_ifs <;> rfl

/-! ## Lemmas about the timeout arithmetic -/

lemma wrapSub64_of_le {T e : Nat} (he : e ≤ T) (hT : T < UMAX64) :
    wrapSub64 T e = T - e := by
  have he' : e % UMAX64 = e := Nat.mod_eq_of_lt (lt_of_le_of_lt he hT)
  have h1 : T + UMAX64 - e % UMAX64 = (T - e) + UMAX64 := by omega
  rw [wrapSub64, h1, Nat.add_mod_right, Nat.mod_eq_of_lt (by omega)]

/-! ## Basic lemmas about the view store -/

lemma storeOf_nil (id : Nat) : storeOf [] id = [] := rfl

lemma storeOf_cons (p : Nat × List Nat) (st : List (Nat × List Nat)) (id : Nat) :
    storeOf (p :: st) id = if p.1 = id then p.2 else storeOf st id := by
  by_cases h : p.1 = id
  · have hb : (p.1 == id) = true := by simpa using h
    simp [storeOf, List.find?, hb, h]
  · have hb : (p.1 == id) = false := by simpa using h
    simp [storeOf, List.find?, hb, h]

lemma mem_storeOf {st : List (Nat × List Nat)} {id v : Nat}
    (h : v ∈ storeOf st id) : ∃ p ∈ st, p.1 = id ∧ v ∈ p.2 := by
  unfold storeOf at h
  cases hf : st.find? (fun p => p.1 == id) with
  | none => rw [hf] at h; simp at h
  | some p =>
    rw [hf] at h
    exact ⟨p, List.mem_of_find?_eq_some hf,
      by simpa using List.find?_some hf, h⟩

lemma setStore_cons (p : Nat × List Nat) (st : List (Nat × List Nat))
    (k : Nat) (v : List Nat) :
    setStore (p :: st) k v =
      (if p.1 = k then (p.1, v) else p) :: setStore st k v := by
  by_cases h : p.1 = k <;> simp [setStore, h]

lemma storeOf_setStore_nil (st : List (Nat × List Nat)) (k id : Nat) :
    storeOf (setStore st k []) id = if id = k then [] else storeOf st id := by
  induction st with
  | nil => by_cases h : id = k <;> simp [setStore, storeOf, h]
  | cons p st ih =>
    rw [setStore_cons]
    by_cases hpk : p.1 = k
    · rw [if_pos hpk, storeOf_cons, storeOf_cons]
      by_cases hik : id = k
      · have hpi : p.1 = id := hpk.trans hik.symm
        simp [hpi, hik]
      · have hpi : ¬ p.1 = id := fun h => hik (h.symm.trans hpk)
        simp [hpi, hik, ih]
    · rw [if_neg hpk, storeOf_cons, storeOf_cons]
      by_cases hpi : p.1 = id
      · have hik : ¬ id = k := fun h => hpk (hpi.trans h)
        simp [hpi, hik]
      · simp [hpi, ih]

lemma mem_setStore_nil {st : List (Nat × List Nat)} {k : Nat}
    {p : Nat × List Nat} (h : p ∈ setStore st k []) :
    p ∈ st ∨ ∃ q ∈ st, p = (q.1, []) := by
  simp only [setStore, List.mem_map] at h
  obtain ⟨q, hq, hqe⟩ := h
  by_cases hk : q.1 = k
  · right
    refine ⟨q, hq, ?_⟩
    rw [← hqe]
    simp [hk]
  · left
    have : (if (q.1 == k) = true then (q.1, ([] : List Nat)) else q) = q := by
      simp [hk]
    rw [← hqe, this]
    exact hq

/-! ## The sweep loop: invariance of the reference-counting components -/

lemma refEq_refl (a : WorldState) : refEq a a := ⟨rfl, rfl, rfl⟩

lemma refEq_trans {a b c : WorldState} (h1 : refEq a b) (h2 : refEq b c) :
    refEq a c :=
  ⟨h1.1.trans h2.1, h1.2.1.trans h2.2.1, h1.2.2.trans h2.2.2⟩

lemma refCount_congr {a b : WorldState} (h : refEq a b) (id : Nat) :
    refCount a id = refCount b id := by
  unfold refCount
  rw [h.1, h.2.1, h.2.2]

lemma sweepOne_refEq (s : WorldState) (e : StaleEntry) :
    refEq (sweepOne s e) s := by
  unfold sweepOne
  split <;> exact ⟨rfl, rfl, rfl⟩

lemma foldl_sweepOne_refEq (l : List StaleEntry) (a : WorldState) :
    refEq (l.foldl sweepOne a) a := by
  induction l generalizing a with
  | nil => exact refEq_refl a
  | cons e l ih =>
    exact refEq_trans (ih (sweepOne a e)) (sweepOne_refEq a e)

lemma sweepOne_fresh (s : WorldState) (e : StaleEntry) :
    (sweepOne s e).fresh = s.fresh := by
  unfold sweepOne; split <;> rfl

lemma sweepOne_destroyedFences (s : WorldState) (e : StaleEntry) :
    (sweepOne s e).destroyedFences = s.destroyedFences := by
  unfold sweepOne; split <;> rfl

lemma foldl_sweepOne_fresh (l : List StaleEntry) (a : WorldState) :
    (l.foldl sweepOne a).fresh = a.fresh := by
  induction l generalizing a with
  | nil => rfl
  | cons e l ih => rw [List.foldl_cons, ih, sweepOne_fresh]

lemma foldl_sweepOne_destroyedFences (l : List StaleEntry) (a : WorldState) :
    (l.foldl sweepOne a).destroyedFences = a.destroyedFences := by
  induction l generalizing a with
  | nil => rfl
  | cons e l ih => rw [List.foldl_cons, ih, sweepOne_destroyedFences]

lemma foldl_sweepOne_destroyedSems (s : WorldState) :
    ∀ (l : List StaleEntry) (a : WorldState), refEq a s →
    ∀ x, x ∈ (l.foldl sweepOne a).destroyedSems ↔
      x ∈ a.destroyedSems ∨ ∃ e ∈ l, refCount s e.viewsId = 1 ∧ e.sem = x := by
  intro l
  induction l with
  | nil => intro a _ x; simp
  | cons e l ih =>
    intro a ha x
    have ha' : refEq (sweepOne a e) s := refEq_trans (sweepOne_refEq a e) ha
    have hrc : refCount a e.viewsId = refCount s e.viewsId := refCount_congr ha _
    rw [List.foldl_cons, ih (sweepOne a e) ha' x]
    by_cases h : refCount s e.viewsId = 1
    · have hs : (sweepOne a e).destroyedSems = e.sem :: a.destroyedSems := by
        simp [sweepOne, hrc, h]
      rw [hs]
      simp only [List.mem_cons]
      constructor
      · rintro (⟨h1 | h1⟩ | ⟨e', he', h1, h2⟩)
        · exact Or.inr ⟨e, Or.inl rfl, h, h1.symm⟩
        · exact Or.inl h1
        · exact Or.inr ⟨e', Or.inr he', h1, h2⟩
      · rintro (h1 | ⟨e', he', h1, h2⟩)
        · exact Or.inl (Or.inr h1)
        · rcases he' with rfl | he''
          · exact Or.inl (Or.inl h2.symm)
          · exact Or.inr ⟨e', he'', h1, h2⟩
    · have hs : sweepOne a e = a := by
        simp [sweepOne, hrc, h]
      rw [hs]
      simp only [List.mem_cons]
      constructor
      · rintro (h1 | ⟨e', he', h1, h2⟩)
        · exact Or.inl h1
        · exact Or.inr ⟨e', Or.inr he', h1, h2⟩
      · rintro (h1 | ⟨e', he', h1, h2⟩)
        · exact Or.inl h1
        · rcases he' with rfl | he''
          · exact absurd h1 h
          · exact Or.inr ⟨e', he'', h1, h2⟩

lemma foldl_sweepOne_storeOf (s : WorldState) :
    ∀ (l : List StaleEntry) (a : WorldState), refEq a s → ∀ id,
    storeOf (l.foldl sweepOne a).viewStore id =
      if ∃ e ∈ l, e.viewsId = id ∧ refCount s e.viewsId = 1 then []
      else storeOf a.viewStore id := by
  intro l
  induction l with
  | nil => intro a _ id; simp
  | cons e l ih =>
    intro a ha id
    have ha' : refEq (sweepOne a e) s := refEq_trans (sweepOne_refEq a e) ha
    have hrc : refCount a e.viewsId = refCount s e.viewsId := refCount_congr ha _
    rw [List.foldl_cons, ih (sweepOne a e) ha' id]
    by_cases h : refCount s e.viewsId = 1
    · have hs : (sweepOne a e).viewStore = setStore a.viewStore e.viewsId [] := by
        simp [sweepOne, hrc, h]
      rw [hs, storeOf_setStore_nil]
      by_cases h1 : ∃ e' ∈ l, e'.viewsId = id ∧ refCount s e'.viewsId = 1
      · rw [if_pos h1, if_pos]
        exact h1.elim fun e' ⟨he', h2, h3⟩ =>
          ⟨e', by simp [he'], h2, h3⟩
      · rw [if_neg h1]
        by_cases h2 : id = e.viewsId
        · rw [if_pos h2, if_pos ⟨e, by simp, h2.symm, h⟩]
        · rw [if_neg h2, if_neg]
          rintro ⟨e', he', h3, h4⟩
          rcases List.mem_cons.mp he' with rfl | he''
          · exact h2 h3.symm
          · exact h1 ⟨e', he'', h3, h4⟩
    · have hs : sweepOne a e = a := by
        simp [sweepOne, hrc, h]
      rw [hs]
      by_cases h1 : ∃ e' ∈ l, e'.viewsId = id ∧ refCount s e'.viewsId = 1
      · rw [if_pos h1, if_pos]
        exact h1.elim fun e' ⟨he', h2, h3⟩ =>
          ⟨e', by simp [he'], h2, h3⟩
      · rw [if_neg h1, if_neg]
        rintro ⟨e', he', h3, h4⟩
        rcases List.mem_cons.mp he' with rfl | he''
        · exact h h4
        · exact h1 ⟨e', he'', h3, h4⟩

lemma foldl_sweepOne_destroyedViews (s : WorldState) :
    ∀ (l : List StaleEntry) (a : WorldState), refEq a s →
    (∀ e ∈ l, refCount s e.viewsId = 1 →
        storeOf a.viewStore e.viewsId = storeOf s.viewStore e.viewsId) →
    (∀ e ∈ l, refCount s e.viewsId = 1 →
        l.countP (fun x => x.viewsId == e.viewsId) ≤ 1) →
    ∀ v, v ∈ (l.foldl sweepOne a).destroyedViews ↔
      v ∈ a.destroyedViews ∨
        ∃ e ∈ l, refCount s e.viewsId = 1 ∧ v ∈ storeOf s.viewStore e.viewsId := by
  intro l
  induction l with
  | nil => intro a _ _ _ v; simp
  | cons e l ih =>
    intro a ha hpres huniq v
    have ha' : refEq (sweepOne a e) s := refEq_trans (sweepOne_refEq a e) ha
    have hrc : refCount a e.viewsId = refCount s e.viewsId := refCount_congr ha _
    have huniq' : ∀ e' ∈ l, refCount s e'.viewsId = 1 →
        l.countP (fun x => x.viewsId == e'.viewsId) ≤ 1 := by
      intro e' he' h1
      have h2 := huniq e' (List.mem_cons_of_mem e he') h1
      rw [List.countP_cons] at h2
      omega
    by_cases h : refCount s e.viewsId = 1
    · have hpres' : ∀ e' ∈ l, refCount s e'.viewsId = 1 →
          storeOf (sweepOne a e).viewStore e'.viewsId =
            storeOf s.viewStore e'.viewsId := by
        intro e' he' h1
        have hne : e'.viewsId ≠ e.viewsId := by
          intro hEq
          have h2 := huniq e' (List.mem_cons_of_mem e he') h1
          rw [List.countP_cons] at h2
          have h3 : 0 < l.countP (fun x => x.viewsId == e'.viewsId) :=
            List.countP_pos_iff.mpr ⟨e', he', by simp⟩
          simp only [hEq, beq_self_eq_true, if_true] at h2 h3
          omega
        have hvs : (sweepOne a e).viewStore = setStore a.viewStore e.viewsId [] := by
          simp [sweepOne, hrc, h]
        rw [hvs, storeOf_setStore_nil, if_neg hne,
          hpres e' (List.mem_cons_of_mem e he') h1]
      have hdv : (sweepOne a e).destroyedViews =
          storeOf a.viewStore e.viewsId ++ a.destroyedViews := by
        simp [sweepOne, hrc, h]
      rw [List.foldl_cons, ih (sweepOne a e) ha' hpres' huniq' v, hdv,
        hpres e (List.mem_cons_self e l) h]
      simp only [List.mem_append, List.mem_cons]
      constructor
      · rintro (⟨h1 | h1⟩ | ⟨e', he', h1, h2⟩)
        · exact Or.inr ⟨e, Or.inl rfl, h, h1⟩
        · exact Or.inl h1
        · exact Or.inr ⟨e', Or.inr he', h1, h2⟩
      · rintro (h1 | ⟨e', he', h1, h2⟩)
        · exact Or.inl (Or.inr h1)
        · rcases he' with rfl | he''
          · exact Or.inl (Or.inl h2)
          · exact Or.inr ⟨e', he'', h1, h2⟩
    · have hs : sweepOne a e = a := by
        simp [sweepOne, hrc, h]
      have hpres' : ∀ e' ∈ l, refCount s e'.viewsId = 1 →
          storeOf (sweepOne a e).viewStore e'.viewsId =
            storeOf s.viewStore e'.viewsId := by
        intro e' he' h1
        rw [hs]
        exact hpres e' (List.mem_cons_of_mem e he') h1
      rw [List.foldl_cons, ih (sweepOne a e) ha' hpres' huniq' v, hs]
      simp only [List.mem_cons]
      constructor
      · rintro (h1 | ⟨e', he', h1, h2⟩)
        · exact Or.inl h1
        · exact Or.inr ⟨e', Or.inr he', h1, h2⟩
      · rintro (h1 | ⟨e', he', h1, h2⟩)
        · exact Or.inl h1
        · rcases he' with rfl | he''
          · exact absurd h1 h
          · exact Or.inr ⟨e', he'', h1, h2⟩

lemma key_empty_setStore {st : List (Nat × List Nat)} {id : Nat} {k : Nat}
    (h : ∀ p ∈ st, p.1 = id → p.2 = []) :
    ∀ p ∈ setStore st k [], p.1 = id → p.2 = [] := by
  intro p hp hpid
  rcases mem_setStore_nil hp with hp' | ⟨q, _, rfl⟩
  · exact h p hp' hpid
  · rfl

lemma key_empty_setStore_self (st : List (Nat × List Nat)) (id : Nat) :
    ∀ p ∈ setStore st id [], p.1 = id → p.2 = [] := by
  intro p hp hpid
  simp only [setStore, List.mem_map] at hp
  obtain ⟨q, _, hqe⟩ := hp
  by_cases hk : q.1 = id
  · rw [← hqe]; simp [hk]
  · exfalso
    apply hk
    have : (if (q.1 == id) = true then (q.1, ([] : List Nat)) else q) = q := by
      simp [hk]
    rw [this] at hqe
    rw [hqe]
    exact hpid

lemma foldl_sweepOne_key_empty_preserved (id : Nat) :
    ∀ (l : List StaleEntry) (a : WorldState),
    (∀ p ∈ a.viewStore, p.1 = id → p.2 = []) →
    ∀ p ∈ (l.foldl sweepOne a).viewStore, p.1 = id → p.2 = [] := by
  intro l
  induction l with
  | nil => intro a h; exact h
  | cons e l ih =>
    intro a h
    rw [List.foldl_cons]
    apply ih
    unfold sweepOne
    split
    · exact key_empty_setStore h
    · exact h

lemma foldl_sweepOne_key_empty (s : WorldState) :
    ∀ (l : List StaleEntry) (a : WorldState), refEq a s →
    ∀ e ∈ l, refCount s e.viewsId = 1 →
    ∀ p ∈ (l.foldl sweepOne a).viewStore, p.1 = e.viewsId → p.2 = [] := by
  intro l
  induction l with
  | nil => intro a _ e he; exact absurd he (List.not_mem_nil e)
  | cons e' l ih =>
    intro a ha e he h
    have ha' : refEq (sweepOne a e') s := refEq_trans (sweepOne_refEq a e') ha
    rcases List.mem_cons.mp he with rfl | he''
    · rw [List.foldl_cons]
      apply foldl_sweepOne_key_empty_preserved
      have hrc : refCount a e.viewsId = refCount s e.viewsId := refCount_congr ha _
      have hvs : (sweepOne a e).viewStore = setStore a.viewStore e.viewsId [] := by
        simp [sweepOne, hrc, h]
      rw [hvs]
      exact key_empty_setStore_self a.viewStore e.viewsId
    · rw [List.foldl_cons]
      exact ih (sweepOne a e') ha' e he'' h

lemma foldl_sweepOne_store_shape :
    ∀ (l : List StaleEntry) (a : WorldState),
    ∀ p ∈ (l.foldl sweepOne a).viewStore,
      p ∈ a.viewStore ∨ ∃ q ∈ a.viewStore, p = (q.1, []) := by
  intro l
  induction l with
  | nil => intro a p hp; exact Or.inl hp
  | cons e l ih =>
    intro a p hp
    rw [List.foldl_cons] at hp
    rcases ih (sweepOne a e) p hp with hp' | ⟨q, hq, rfl⟩
    · have : (sweepOne a e).viewStore = setStore a.viewStore e.viewsId [] ∨
          (sweepOne a e).viewStore = a.viewStore := by
        unfold sweepOne; split
        · exact Or.inl rfl
        · exact Or.inr rfl
      rcases this with hvs | hvs
      · rw [hvs] at hp'
        rcases mem_setStore_nil hp' with h1 | ⟨q, hq, rfl⟩
        · exact Or.inl h1
        · exact Or.inr ⟨q, hq, rfl⟩
      · rw [hvs] at hp'
        exact Or.inl hp'
    · have : (sweepOne a e).viewStore = setStore a.viewStore e.viewsId [] ∨
          (sweepOne a e).viewStore = a.viewStore := by
        unfold sweepOne; split
        · exact Or.inl rfl
        · exact Or.inr rfl
      rcases this with hvs | hvs
      · rw [hvs] at hq
        rcases mem_setStore_nil hq with h1 | ⟨r, hr, hqr⟩
        · exact Or.inr ⟨q, h1, rfl⟩
        · exact Or.inr ⟨r, hr, by rw [hqr]⟩
      · rw [hvs] at hq
        exact Or.inr ⟨q, hq, rfl⟩

/-! ## Characterization of `clear_stale_views` -/

lemma countP_stale_le_refCount (s : WorldState) (id : Nat) :
    s.staleViews.countP (fun x => x.viewsId == id) ≤ refCount s id := by
  cases h : s.active with
  | none => simp only [refCount, h]; omega
  | some ssc => simp only [refCount, h]; split_ifs <;> omega

lemma countP_images_add_stale_le_refCount (s : WorldState) (id : Nat) :
    s.staleViews.countP (fun x => x.viewsId == id)
      + s.images.countP (fun i => i.viewsId == id) ≤ refCount s id := by
  cases h : s.active with
  | none => simp only [refCount, h]; omega
  | some ssc => simp only [refCount, h]; split_ifs <;> omega

lemma active_add_stale_le_refCount (s : WorldState) (ssc : SurfaceSwapchain)
    (h : s.active = some ssc) (id : Nat) (hid : ssc.viewsId = id) :
    1 + s.staleViews.countP (fun x => x.viewsId == id) ≤ refCount s id := by
  simp only [refCount, h, hid, if_pos]
  omega

lemma reclaim_countP (s : WorldState) (e : StaleEntry) (_he : e ∈ s.staleViews)
    (h : refCount s e.viewsId = 1) :
    s.staleViews.countP (fun x => x.viewsId == e.viewsId) ≤ 1 :=
  le_trans (countP_stale_le_refCount s e.viewsId) (le_of_eq h)

lemma exists_reclaim_iff (s : WorldState) (e : StaleEntry)
    (he : e ∈ s.staleViews) :
    (∃ e' ∈ s.staleViews, e'.viewsId = e.viewsId ∧ refCount s e'.viewsId = 1) ↔
      refCount s e.viewsId = 1 := by
  constructor
  · rintro ⟨e', _, h1, h2⟩
    rw [h1] at h2
    exact h2
  · intro h
    exact ⟨e, he, rfl, h⟩

lemma clearStaleViews_active (s : WorldState) :
    (clearStaleViews s).active = s.active :=
  (foldl_sweepOne_refEq s.staleViews s).1

lemma clearStaleViews_images (s : WorldState) :
    (clearStaleViews s).images = s.images :=
  (foldl_sweepOne_refEq s.staleViews s).2.2

lemma clearStaleViews_fresh (s : WorldState) :
    (clearStaleViews s).fresh = s.fresh :=
  foldl_sweepOne_fresh s.staleViews s

lemma clearStaleViews_destroyedFences (s : WorldState) :
    (clearStaleViews s).destroyedFences = s.destroyedFences :=
  foldl_sweepOne_destroyedFences s.staleViews s

lemma clearStaleViews_destroyedSems (s : WorldState) (x : Nat) :
    x ∈ (clearStaleViews s).destroyedSems ↔
      x ∈ s.destroyedSems ∨
        ∃ e ∈ s.staleViews, refCount s e.viewsId = 1 ∧ e.sem = x :=
  foldl_sweepOne_destroyedSems s s.staleViews s (refEq_refl s) x

lemma clearStaleViews_destroyedViews (s : WorldState) (v : Nat) :
    v ∈ (clearStaleViews s).destroyedViews ↔
      v ∈ s.destroyedViews ∨
        ∃ e ∈ s.staleViews, refCount s e.viewsId = 1 ∧
          v ∈ storeOf s.viewStore e.viewsId :=
  foldl_sweepOne_destroyedViews s s.staleViews s (refEq_refl s)
    (fun _ _ _ => rfl) (fun e he h => reclaim_countP s e he h) v

lemma clearStaleViews_storeOf (s : WorldState) (id : Nat) :
    storeOf (clearStaleViews s).viewStore id =
      if ∃ e ∈ s.staleViews, e.viewsId = id ∧ refCount s e.viewsId = 1 then []
      else storeOf s.viewStore id :=
  foldl_sweepOne_storeOf s s.staleViews s (refEq_refl s) id

lemma clearStaleViews_staleViews_eq (s : WorldState) :
    (clearStaleViews s).staleViews =
      s.staleViews.filter
        (fun e => !(storeOf (clearStaleViews s).viewStore e.viewsId).isEmpty) := by
  show (s.staleViews.foldl sweepOne s).staleViews.filter _ = _
  rw [(foldl_sweepOne_refEq s.staleViews s).2.1]
  rfl

lemma clearStaleViews_stale_mem (s : WorldState) (e : StaleEntry) :
    e ∈ (clearStaleViews s).staleViews ↔
      e ∈ s.staleViews ∧ refCount s e.viewsId ≠ 1 ∧
        storeOf s.viewStore e.viewsId ≠ [] := by
  rw [clearStaleViews_staleViews_eq, List.mem_filter]
  constructor
  · rintro ⟨he, hcond⟩
    have h2 : storeOf (clearStaleViews s).viewStore e.viewsId ≠ [] := by
      simpa [List.isEmpty_iff] using hcond
    rw [clearStaleViews_storeOf] at h2
    by_cases hrc : refCount s e.viewsId = 1
    · rw [if_pos ((exists_reclaim_iff s e he).mpr hrc)] at h2
      exact absurd rfl h2
    · rw [if_neg (fun hx => hrc ((exists_reclaim_iff s e he).mp hx))] at h2
      exact ⟨he, hrc, h2⟩
  · rintro ⟨he, hrc, hne⟩
    refine ⟨he, ?_⟩
    have h2 : storeOf (clearStaleViews s).viewStore e.viewsId ≠ [] := by
      rw [clearStaleViews_storeOf,
        if_neg (fun hx => hrc ((exists_reclaim_iff s e he).mp hx))]
      exact hne
    simpa [List.isEmpty_iff] using h2

lemma clearStaleViews_storeOf_of_holder (s : WorldState) (id : Nat)
    (h : 0 < s.images.countP (fun i => i.viewsId == id) ∨
         ∃ ssc, s.active = some ssc ∧ ssc.viewsId = id) :
    storeOf (clearStaleViews s).viewStore id = storeOf s.viewStore id := by
  rw [clearStaleViews_storeOf, if_neg]
  rintro ⟨e, he, h1, h2⟩
  rw [h1] at h2
  have hst : 0 < s.staleViews.countP (fun x => x.viewsId == id) :=
    List.countP_pos_iff.mpr ⟨e, he, by simp [h1]⟩
  rcases h with him | ⟨ssc, ha, hai⟩
  · have := countP_images_add_stale_le_refCount s id
    omega
  · have := active_add_stale_le_refCount s ssc ha id hai
    omega

/-! ## The acquire path applies the sweep on every branch -/

lemma acquireImage_state_fields (s : WorldState) (t : Nat) (o : AcquireOracle) :
    (Surface.acquireImage s t o).state.staleViews = (clearStaleViews s).staleViews ∧
    (Surface.acquireImage s t o).state.viewStore = (clearStaleViews s).viewStore ∧
    (Surface.acquireImage s t o).state.destroyedViews = (clearStaleViews s).destroyedViews ∧
    (Surface.acquireImage s t o).state.destroyedSems = (clearStaleViews s).destroyedSems ∧
    (Surface.acquireImage s t o).state.destroyedFences = (clearStaleViews s).destroyedFences ∧
    (Surface.acquireImage s t o).state.active = (clearStaleViews s).active ∧
    (Surface.acquireImage s t o).state.fresh = (clearStaleViews s).fresh := by
  unfold Surface.acquireImage
  rcases h1 : (clearStaleViews s).active with _ | ssc
  · simp [h1]
  · rcases h2 : Swapchain.acquireImage o.driverResult with _ | r
    · simp [h1, h2]
    · rcases r with e | ⟨i, sub⟩
      · simp [h1, h2]
      · rcases h3 : o.waitResult with c | u
        · rcases h4 : waitErrorMap c with _ | e <;> simp [h1, h2, h3, h4]
        · simp [h1, h2, h3]

lemma acquireImage_images (s : WorldState) (t : Nat) (o : AcquireOracle) :
    (Surface.acquireImage s t o).state.images = (clearStaleViews s).images ∨
    ∃ ssc i, (clearStaleViews s).active = some ssc ∧
      (Surface.acquireImage s t o).state.images =
        (⟨i, ssc.viewsId⟩ : SurfaceImage) :: (clearStaleViews s).images := by
  unfold Surface.acquireImage
  rcases h1 : (clearStaleViews s).active with _ | ssc
  · simp [h1]
  · rcases h2 : Swapchain.acquireImage o.driverResult with _ | r
    · simp [h1, h2]
    · rcases r with e | ⟨i, sub⟩
      · simp [h1, h2]
      · rcases h3 : o.waitResult with c | u
        · rcases h4 : waitErrorMap c with _ | e <;> simp [h1, h2, h3, h4]
        · right
          exact ⟨ssc, i, rfl, by simp [h1, h2, h3]⟩

/-! ## Well-formedness invariant of reachable surface states -/

lemma clearStaleViews_viewStore (s : WorldState) :
    (clearStaleViews s).viewStore = (s.staleViews.foldl sweepOne s).viewStore := rfl


lemma wf_initState : WF initState := by
  constructor <;> simp [initState]

lemma wf_clearStaleViews {s : WorldState} (h : WF s) : WF (clearStaleViews s) := by
  have hfresh := clearStaleViews_fresh s
  have himg := clearStaleViews_images s
  have hact := clearStaleViews_active s
  have hshape : ∀ p ∈ (clearStaleViews s).viewStore,
      p ∈ s.viewStore ∨ ∃ q ∈ s.viewStore, p = (q.1, []) := by
    intro p hp
    rw [clearStaleViews_viewStore] at hp
    exact foldl_sweepOne_store_shape s.staleViews s p hp
  constructor
  · intro p hp
    rw [hfresh]
    rcases hshape p hp with hp' | ⟨q, hq, rfl⟩
    · exact h.storeKeyLt p hp'
    · exact h.storeKeyLt q hq
  · intro p hp v hv
    rw [hfresh]
    rcases hshape p hp with hp' | ⟨q, hq, rfl⟩
    · exact h.storeViewLt p hp' v hv
    · simp at hv
  · intro v hv
    rw [hfresh]
    rcases (clearStaleViews_destroyedViews s v).mp hv with h1 | ⟨e, _, _, h2⟩
    · exact h.destroyedLt v h1
    · obtain ⟨q, hq, _, hvq⟩ := mem_storeOf h2
      exact h.storeViewLt q hq v hvq
  · intro img himg'
    rw [hfresh]
    exact h.imageIdLt img (himg ▸ himg')
  · intro ssc ha
    rw [hfresh]
    exact h.activeIdLt ssc (hact ▸ ha)
  · intro p hp q hq hne v hv
    rcases hshape q hq with hq' | ⟨r, hr, rfl⟩
    · rcases hshape p hp with hp' | ⟨r', hr', rfl⟩
      · exact h.slotsDisjoint p hp' q hq' hne v hv
      · simp at hv
    · simp
  · intro p hp v hv hmem
    rcases (clearStaleViews_destroyedViews s v).mp hmem with h1 | ⟨e, he, hrc, h2⟩
    · rcases hshape p hp with hp' | ⟨q, hq, rfl⟩
      · exact h.liveNotDestroyed p hp' v hv h1
      · simp at hv
    · obtain ⟨q, hq, hq1, hvq⟩ := mem_storeOf h2
      rcases hshape p hp with hp' | ⟨r, hr, rfl⟩
      · by_cases hpe : p.1 = e.viewsId
        · have hempty : p.2 = [] := by
            apply foldl_sweepOne_key_empty s s.staleViews s (refEq_refl s) e he hrc p
            · rw [← clearStaleViews_viewStore]; exact hp
            · exact hpe
          rw [hempty] at hv
          simp at hv
        · exact h.slotsDisjoint p hp' q hq (hq1 ▸ hpe) v hv hvq
      · simp at hv

lemma mem_range_map_bounds {n F v : Nat}
    (h : v ∈ (List.range n).map (fun i => F + i)) : F ≤ v ∧ v < F + n := by
  simp only [List.mem_map, List.mem_range] at h
  obtain ⟨i, hi, rfl⟩ := h
  omega


lemma configureSwapchain_state (s : WorldState) (o : ConfigOracle) :
    (configureSwapchain s o).state =
      if o.ok then installState (takenState s) o else takenState s := by
  unfold configureSwapchain takenState installState
  rcases ha : s.active with _ | ssc <;> rcases ho : o.ok <;> simp [ha, ho]

lemma takenState_viewStore (s : WorldState) :
    (takenState s).viewStore = s.viewStore := by
  unfold takenState; rcases s.active <;> rfl

lemma takenState_images (s : WorldState) :
    (takenState s).images = s.images := by
  unfold takenState; rcases s.active <;> rfl

lemma takenState_fresh (s : WorldState) :
    (takenState s).fresh = s.fresh := by
  unfold takenState; rcases s.active <;> rfl

lemma takenState_destroyedViews (s : WorldState) :
    (takenState s).destroyedViews = s.destroyedViews := by
  unfold takenState; rcases s.active <;> rfl

lemma takenState_active (s : WorldState) :
    (takenState s).active = none := by
  unfold takenState; rcases s.active <;> rfl

lemma wf_takenState {s : WorldState} (h : WF s) : WF (takenState s) := by
  constructor
  · rw [takenState_viewStore, takenState_fresh]; exact h.storeKeyLt
  · rw [takenState_viewStore, takenState_fresh]; exact h.storeViewLt
  · rw [takenState_destroyedViews, takenState_fresh]; exact h.destroyedLt
  · rw [takenState_images, takenState_fresh]; exact h.imageIdLt
  · intro ssc hssc
    rw [takenState_active] at hssc
    cases hssc
  · rw [takenState_viewStore]; exact h.slotsDisjoint
  · rw [takenState_viewStore, takenState_destroyedViews]
    exact h.liveNotDestroyed

lemma wf_installState {s1 : WorldState} (h : WF s1) (o : ConfigOracle) :
    WF (installState s1 o) := by
  constructor
  · intro p hp
    rcases List.mem_cons.mp hp with rfl | hp'
    · show s1.fresh + 3 < s1.fresh + 4 + o.imageCount
      omega
    · have := h.storeKeyLt p hp'
      show p.1 < s1.fresh + 4 + o.imageCount
      omega
  · intro p hp v hv
    rcases List.mem_cons.mp hp with rfl | hp'
    · have := mem_range_map_bounds hv
      show v < s1.fresh + 4 + o.imageCount
      omega
    · have := h.storeViewLt p hp' v hv
      show v < s1.fresh + 4 + o.imageCount
      omega
  · intro v hv
    have := h.destroyedLt v hv
    show v < s1.fresh + 4 + o.imageCount
    omega
  · intro img himg
    have := h.imageIdLt img himg
    show img.viewsId < s1.fresh + 4 + o.imageCount
    omega
  · intro ssc hssc
    cases hssc
    show s1.fresh + 3 < s1.fresh + 4 + o.imageCount
    omega
  · intro p hp q hq hne v hv hvq
    rcases List.mem_cons.mp hp with rfl | hp' <;>
      rcases List.mem_cons.mp hq with rfl | hq'
    · exact hne rfl
    · have h1 := mem_range_map_bounds hv
      have h2 := h.storeViewLt q hq' v hvq
      omega
    · have h1 := mem_range_map_bounds hvq
      have h2 := h.storeViewLt p hp' v hv
      omega
    · exact h.slotsDisjoint p hp' q hq' hne v hv hvq
  · intro p hp v hv hmem
    rcases List.mem_cons.mp hp with rfl | hp'
    · have h1 := mem_range_map_bounds hv
      have h2 := h.destroyedLt v hmem
      omega
    · exact h.liveNotDestroyed p hp' v hv hmem

lemma wf_configureSwapchain {s : WorldState} (h : WF s) (o : ConfigOracle) :
    WF (configureSwapchain s o).state := by
  rw [configureSwapchain_state]
  by_cases ho : o.ok = true
  · rw [if_pos ho]
    exact wf_installState (wf_takenState h) o
  · rw [if_neg ho]
    exact wf_takenState h

lemma wf_acquireImage {s : WorldState} (h : WF s) (t : Nat) (o : AcquireOracle) :
    WF (Surface.acquireImage s t o).state := by
  have h1 := wf_clearStaleViews h
  obtain ⟨hst, hvs, hdv, hds, hdf, hac, hfr⟩ := acquireImage_state_fields s t o
  constructor
  · rw [hvs, hfr]; exact h1.storeKeyLt
  · rw [hvs, hfr]; exact h1.storeViewLt
  · rw [hdv, hfr]; exact h1.destroyedLt
  · rw [hfr]
    rcases acquireImage_images s t o with him | ⟨ssc, i, hssc, him⟩
    · rw [him]; exact h1.imageIdLt
    · rw [him]
      intro img himg
      rcases List.mem_cons.mp himg with rfl | himg'
      · exact h1.activeIdLt ssc hssc
      · exact h1.imageIdLt img himg'
  · intro ssc hssc
    rw [hfr]
    exact h1.activeIdLt ssc (hac ▸ hssc)
  · rw [hvs]; exact h1.slotsDisjoint
  · rw [hvs, hdv]; exact h1.liveNotDestroyed

lemma wf_dropImage {s : WorldState} (h : WF s) (img : SurfaceImage) :
    WF (dropImage s img) := by
  constructor
  · exact h.storeKeyLt
  · exact h.storeViewLt
  · exact h.destroyedLt
  · intro i hi
    exact h.imageIdLt i (List.mem_of_mem_erase hi)
  · exact h.activeIdLt
  · exact h.slotsDisjoint
  · exact h.liveNotDestroyed

lemma wf_step {a b : WorldState} (h : WF a) (st : SurfaceStep a b) : WF b := by
  cases st with
  | configure o => exact wf_configureSwapchain h o
  | acquire t o => exact wf_acquireImage h t o
  | drop img _ => exact wf_dropImage h img

lemma wf_reachable {s : WorldState} (h : Reachable s) : WF s := by
  induction h with
  | refl => exact wf_initState
  | tail _ h2 ih => exact wf_step ih h2

lemma mem_storeOf_not_destroyed {s : WorldState} (h : WF s) {id v : Nat}
    (hv : v ∈ storeOf s.viewStore id) : v ∉ s.destroyedViews := by
  obtain ⟨p, hp, _, hvp⟩ := mem_storeOf hv
  exact h.liveNotDestroyed p hp v hvp

/-- A single surface operation never changes the view vector shared by an
outstanding `SurfaceImage`: a reconfiguration only adds a fresh view set, and
the sweep skips every view set whose reference count exceeds one. -/
lemma step_preserves_held_store {b c : WorldState} {img : SurfaceImage}
    (h : WF b) (st : SurfaceStep b c) (hm : img ∈ b.images) :
    storeOf c.viewStore img.viewsId = storeOf b.viewStore img.viewsId := by
  cases st with
  | configure o =>
    rw [configureSwapchain_state]
    by_cases ho : o.ok = true
    · rw [if_pos ho]
      have hins : (installState (takenState b) o).viewStore =
          ((takenState b).fresh + 3,
            (List.range o.imageCount).map (fun i => (takenState b).fresh + 4 + i))
            :: (takenState b).viewStore := rfl
      rw [hins, storeOf_cons, if_neg, takenState_viewStore]
      rw [takenState_fresh]
      have := h.imageIdLt img hm
      omega
    · rw [if_neg ho, takenState_viewStore]
  | acquire t o =>
    rw [(acquireImage_state_fields b t o).2.1]
    apply clearStaleViews_storeOf_of_holder
    left
    exact List.countP_pos_iff.mpr ⟨img, hm, by simp⟩
  | drop i _ => rfl

/-! ## Outcome of the acquire path by driver behaviour -/

lemma acquireImage_no_active {s : WorldState} (t : Nat) (o : AcquireOracle)
    (h : s.active = none) :
    (Surface.acquireImage s t o).outcome = .fatal ∧
    (Surface.acquireImage s t o).waitBudget = none := by
  have hact : (clearStaleViews s).active = none := by
    rw [clearStaleViews_active]; exact h
  unfold Surface.acquireImage
  simp [hact]

lemma acquireImage_driver_error {s : WorldState} {t : Nat} {o : AcquireOracle}
    {c : Int} {ssc : SurfaceSwapchain} (h : s.active = some ssc)
    (hd : o.driverResult = .error c) :
    (Surface.acquireImage s t o).outcome =
      (match waitErrorMap c with
       | some e => AcquireOutcome.err e
       | none => AcquireOutcome.fatal) ∧
    (Surface.acquireImage s t o).waitBudget = none := by
  have hact : (clearStaleViews s).active = some ssc := by
    rw [clearStaleViews_active]; exact h
  have hsw : Swapchain.acquireImage o.driverResult =
      Option.map Except.error (waitErrorMap c) := by
    rw [hd]; exact swapchain_acquire_error c
  unfold Surface.acquireImage
  rcases hm : waitErrorMap c with _ | e <;>
    rw [hm] at hsw <;> simp [hact, hsw]

lemma acquireImage_wait_error {s : WorldState} {t : Nat} {o : AcquireOracle}
    {i : Nat} {sub : Bool} {c : Int} {ssc : SurfaceSwapchain}
    (h : s.active = some ssc) (hd : o.driverResult = .ok (i, sub))
    (hw : o.waitResult = .error c) :
    (Surface.acquireImage s t o).outcome =
      (match waitErrorMap c with
       | some e => AcquireOutcome.err e
       | none => AcquireOutcome.fatal) ∧
    (Surface.acquireImage s t o).waitBudget = some (wrapSub64 t o.elapsedNs) := by
  have hact : (clearStaleViews s).active = some ssc := by
    rw [clearStaleViews_active]; exact h
  have hsw : Swapchain.acquireImage o.driverResult =
      some (.ok (i, if sub then some .mk else none)) := by
    rw [hd]
    rcases sub <;> simp [Swapchain.acquireImage]
  unfold Surface.acquireImage
  rcases hm : waitErrorMap c with _ | e <;> simp [hact, hsw, hw, hm]

lemma acquireImage_ok {s : WorldState} {t : Nat} {o : AcquireOracle}
    {i : Nat} {sub : Bool} {ssc : SurfaceSwapchain}
    (h : s.active = some ssc) (hd : o.driverResult = .ok (i, sub))
    (hw : o.waitResult = .ok ()) :
    (Surface.acquireImage s t o).outcome =
      .ok ⟨i, ssc.viewsId⟩ (if sub then some .mk else none) ∧
    (Surface.acquireImage s t o).waitBudget = some (wrapSub64 t o.elapsedNs) ∧
    (Surface.acquireImage s t o).state.images =
      (⟨i, ssc.viewsId⟩ : SurfaceImage) :: (clearStaleViews s).images := by
  have hact : (clearStaleViews s).active = some ssc := by
    rw [clearStaleViews_active]; exact h
  have hsw : Swapchain.acquireImage o.driverResult =
      some (.ok (i, if sub then some .mk else none)) := by
    rw [hd]
    rcases sub <;> simp [Swapchain.acquireImage]
  unfold Surface.acquireImage
  simp [hact, hsw, hw]


lemma exState1_reachable : Reachable exState1 :=
  Relation.ReflTransGen.tail Relation.ReflTransGen.refl
    (SurfaceStep.configure initState exConfig)

lemma exState2_reachable : Reachable exState2 :=
  exState1_reachable.tail (SurfaceStep.acquire exState1 100 exAcqOracle)

lemma exState3_reachable : Reachable exState3 :=
  exState2_reachable.tail (SurfaceStep.configure exState2 exConfig2)

/-! ## The claims -/

/-- C3: the driver-status-to-outcome translation of the acquire path is a
total function over the status codes realizing exactly the table
`NOT_READY ↦ NotReady`, `TIMEOUT ↦ Timeout`, `ERROR_OUT_OF_DATE_KHR ↦
OutOfDate`, `ERROR_SURFACE_LOST_KHR ↦ SurfaceLost`,
`ERROR_OUT_OF_HOST_MEMORY ↦ OutOfMemory(host)`, `ERROR_OUT_OF_DEVICE_MEMORY ↦
OutOfMemory(device)`, `ERROR_DEVICE_LOST ↦ DeviceLost`
(`acquireStatusTable`), and every status outside the table reaches the
explicit fatal branch (`unreachable!` in `Surface::acquire_image`,
`panic!` in `Swapchain::acquire_image`) rather than being silently mapped. -/
theorem acquire_status_mapping_total :
    ∀ c : Int,
      (∀ e, waitErrorMap c = some e ↔ (c, e) ∈ acquireStatusTable) ∧
      (waitErrorMap c = none ↔ ∀ p ∈ acquireStatusTable, c ≠ p.1) ∧
      Swapchain.acquireImage (Except.error c) =
        Option.map Except.error (waitErrorMap c) :=
  fun c =>
    ⟨fun e => waitErrorMap_some_iff c e, waitErrorMap_none_iff c,
      swapchain_acquire_error c⟩

/-- Witness for C3: `NOT_READY` maps to `NotReady`, and the unlisted status
code 5 (`INCOMPLETE`) reaches the fatal branch on both paths. -/
theorem acquire_status_mapping_total_witness :
    waitErrorMap vkr.NOT_READY = some .NotReady ∧
    waitErrorMap 5 = none ∧
    Swapchain.acquireImage (Except.error 5) = none := by
  refine ⟨((acquire_status_mapping_total vkr.NOT_READY).1 _).mpr (by decide),
    (acquire_status_mapping_total 5).2.1.mpr (by decide), ?_⟩
  rw [(acquire_status_mapping_total 5).2.2,
    (acquire_status_mapping_total 5).2.1.mpr (by decide)]
  rfl

/-- C4 counterexample: with caller timeout 0 and one nanosecond of wall-clock
time consumed by a successful driver next-image request, the fence wait is
given the budget `2^64 - 1` (the `u64` subtraction wraps around), not
"timeout minus elapsed time" (which is 0): total caller-visible latency does
not respect the requested timeout on this input. -/
theorem acquire_timeout_budget_counterexample :
    (Surface.acquireImage exState1 0 c4Oracle).waitBudget = some (UMAX64 - 1) ∧
    ¬ (Surface.acquireImage exState1 0 c4Oracle).waitBudget = some (0 - 1) := by
  constructor <;> decide

/-- C4 (amended): the fence-wait budget is the 64-bit wrapping difference of
the caller timeout and the driver-call elapsed time; it equals the true
remaining budget `T - elapsed` (and so respects `T`) exactly when
`elapsed ≤ T`, and wraps to a huge value when `elapsed > T`.  The second part
of the claim stands: with timeout 0 and no ready image the driver request
returns `NOT_READY`, the error propagates via `?`, and the fence wait is never
reached, so the call does not block. -/
theorem acquire_timeout_budget :
    (∀ T e : Nat, e ≤ T → T < UMAX64 → wrapSub64 T e = T - e) ∧
    (∀ (s : WorldState) (t : Nat) (o : AcquireOracle) (ssc : SurfaceSwapchain)
        (i : Nat) (sub : Bool),
      s.active = some ssc → o.driverResult = .ok (i, sub) →
      (Surface.acquireImage s t o).waitBudget = some (wrapSub64 t o.elapsedNs)) ∧
    (∀ (s : WorldState) (t : Nat) (o : AcquireOracle) (ssc : SurfaceSwapchain),
      s.active = some ssc → o.driverResult = .error vkr.NOT_READY →
      (Surface.acquireImage s t o).outcome = .err .NotReady ∧
      (Surface.acquireImage s t o).waitBudget = none) := by
  refine ⟨fun T e he hT => wrapSub64_of_le he hT, ?_, ?_⟩
  · intro s t o ssc i sub ha hd
    rcases hw : o.waitResult with c | u
    · exact (acquireImage_wait_error ha hd hw).2
    · cases u
      exact (acquireImage_ok ha hd hw).2.1
  · intro s t o ssc ha hd
    have h := @acquireImage_driver_error s t o vkr.NOT_READY ssc ha hd
    have hm : waitErrorMap vkr.NOT_READY = some .NotReady := by decide
    rw [hm] at h
    exact h

/-- Witness for C4 (amended): a concrete acquire with timeout 100 and elapsed
10 waits with budget 90, and a concrete timeout-0 acquire against a driver
reporting `NOT_READY` yields `NotReady` without reaching the fence wait. -/
theorem acquire_timeout_budget_witness :
    wrapSub64 100 10 = 90 ∧
    (Surface.acquireImage exState1 100 exAcqOracle).waitBudget = some 90 ∧
    (Surface.acquireImage exState1 0 notReadyOracle).outcome = .err .NotReady ∧
    (Surface.acquireImage exState1 0 notReadyOracle).waitBudget = none := by
  have h1 := acquire_timeout_budget.1 100 10 (by decide)
    (by rw [UMAX64]; norm_num)
  have h2 := acquire_timeout_budget.2.1 exState1 100 exAcqOracle
    ⟨0, 7, 1, false, 2, 3⟩ 0 false (by decide) rfl
  have h3 := acquire_timeout_budget.2.2 exState1 0 notReadyOracle
    ⟨0, 7, 1, false, 2, 3⟩ (by decide) rfl
  refine ⟨h1, ?_, h3.1, h3.2⟩
  rw [h2]
  have : wrapSub64 100 10 = 90 := h1
  rw [show exAcqOracle.elapsedNs = 10 from rfl, this]

/-- C5: when the driver rejects the requested configuration,
`configure_swapchain` returns the error and leaves the surface with no active
configuration (the old one was already taken out), so acquisition is
impossible until a retry succeeds. -/
theorem configure_failure_leaves_unconfigured :
    ∀ (s : WorldState) (o : ConfigOracle), o.ok = false →
      (configureSwapchain s o).state.active = none ∧
      (configureSwapchain s o).success = false := by
  intro s o h
  constructor
  · rw [configureSwapchain_state, if_neg (by simp [h]), takenState_active]
  · unfold configureSwapchain
    rcases ha : s.active with _ | ssc <;> simp [ha, h]

/-- Witness for C5: a failing reconfiguration of a configured surface leaves
it unconfigured. -/
theorem configure_failure_leaves_unconfigured_witness :
    (configureSwapchain exState1 exFailConfig).state.active = none ∧
    (configureSwapchain exState1 exFailConfig).success = false :=
  configure_failure_leaves_unconfigured exState1 exFailConfig rfl

/-- C9: calling acquire with no active configuration panics
(`self.swapchain.as_mut().unwrap()`), and an unrecognized driver status —
whether from the next-image request or from the fence wait — reaches the
explicit panic arm; neither is swallowed or mapped to a recoverable typed
outcome. -/
theorem acquire_fatal_on_invariant_violation :
    (∀ (s : WorldState) (t : Nat) (o : AcquireOracle), s.active = none →
      (Surface.acquireImage s t o).outcome = .fatal) ∧
    (∀ (s : WorldState) (t : Nat) (o : AcquireOracle) (ssc : SurfaceSwapchain)
        (c : Int),
      s.active = some ssc → o.driverResult = .error c →
      (∀ p ∈ acquireStatusTable, c ≠ p.1) →
      (Surface.acquireImage s t o).outcome = .fatal) ∧
    (∀ (s : WorldState) (t : Nat) (o : AcquireOracle) (ssc : SurfaceSwapchain)
        (i : Nat) (sub : Bool) (c : Int),
      s.active = some ssc → o.driverResult = .ok (i, sub) →
      o.waitResult = .error c → (∀ p ∈ acquireStatusTable, c ≠ p.1) →
      (Surface.acquireImage s t o).outcome = .fatal) := by
  refine ⟨?_, ?_, ?_⟩
  · intro s t o h
    exact (acquireImage_no_active t o h).1
  · intro s t o ssc c ha hd hc
    have h := @acquireImage_driver_error s t o c ssc ha hd
    rw [(waitErrorMap_none_iff c).mpr hc] at h
    exact h.1
  · intro s t o ssc i sub c ha hd hw hc
    have h := @acquireImage_wait_error s t o i sub c ssc ha hd hw
    rw [(waitErrorMap_none_iff c).mpr hc] at h
    exact h.1

/-- Witness for C9: acquiring on a fresh unconfigured surface is fatal, and so
are a driver status 5 from the next-image request and from the fence wait on a
configured surface. -/
theorem acquire_fatal_on_invariant_violation_witness :
    (Surface.acquireImage initState 0 exAcqOracle).outcome = .fatal ∧
    (Surface.acquireImage exState1 0 badStatusOracle).outcome = .fatal ∧
    (Surface.acquireImage exState1 0 badWaitOracle).outcome = .fatal :=
  ⟨acquire_fatal_on_invariant_violation.1 initState 0 exAcqOracle rfl,
   acquire_fatal_on_invariant_violation.2.1 exState1 0 badStatusOracle
     ⟨0, 7, 1, false, 2, 3⟩ 5 (by decide) rfl (by decide),
   acquire_fatal_on_invariant_violation.2.2 exState1 0 badWaitOracle
     ⟨0, 7, 1, false, 2, 3⟩ 0 false 5 (by decide) rfl rfl (by decide)⟩

/-- C8: the capability record reported by `compatibility` satisfies: a driver
`max_image_count` of 0 ("no limit") is reported as the unbounded sentinel `!0`
(`U32MAX`), and — the driver values being `u32` with the Vulkan guarantee that
a nonzero max is at least the min — the reported range has `min ≤ max`; the
capability record inside any non-panicking `compatibility` result is exactly
this record. -/
theorem compatibility_image_count_range :
    ∀ caps : VkSurfaceCapabilities,
      (caps.max_image_count = 0 →
        (compatibilityCaps caps).imageCountMax = U32MAX) ∧
      (caps.min_image_count ≤ U32MAX →
        (caps.max_image_count = 0 ∨
          caps.min_image_count ≤ caps.max_image_count) →
        (compatibilityCaps caps).imageCountMin ≤
          (compatibilityCaps caps).imageCountMax) ∧
      (∀ (convMap : Int → Option Int) (convMode : Int → Int)
          (formats modes : List Int)
          (out : SurfaceCapabilities × Option (List Int) × List Int),
        compatibility convMap convMode caps formats modes = some out →
        out.1 = compatibilityCaps caps) := by
  intro caps
  refine ⟨?_, ?_, ?_⟩
  · intro h
    simp [compatibilityCaps, h]
  · intro h1 h2
    simp only [compatibilityCaps]
    by_cases h0 : caps.max_image_count = 0
    · rw [if_pos h0]
      exact h1
    · rw [if_neg h0]
      rcases h2 with h2 | h2
      · exact absurd h2 h0
      · exact h2
  · intro cm cmode formats modes out h
    unfold compatibility at h
    rcases hf : compatibilityFormats cm formats with _ | fs <;> rw [hf] at h
    · cases h
    · cases h
      rfl

/-- Witness for C8: a driver report of min 2, max 0 yields the range
`2 ..= !0`. -/
theorem compatibility_image_count_range_witness :
    (compatibilityCaps exCaps).imageCountMax = U32MAX ∧
    (compatibilityCaps exCaps).imageCountMin ≤
      (compatibilityCaps exCaps).imageCountMax :=
  ⟨(compatibility_image_count_range exCaps).1 rfl,
   (compatibility_image_count_range exCaps).2.1 (by decide) (Or.inl rfl)⟩

/-- C10: `compatibility` indexes `formats[0]` unguarded, so it panics exactly
when the driver reports an empty surface-format list, and returns normally
exactly when the list is nonempty. -/
theorem compatibility_empty_formats_panics :
    ∀ (convMap : Int → Option Int) (convMode : Int → Int)
      (caps : VkSurfaceCapabilities) (formats modes : List Int),
      compatibility convMap convMode caps formats modes = none ↔ formats = [] := by
  intro cm cmode caps formats modes
  unfold compatibility compatibilityFormats
  rcases formats with _ | ⟨f0, rest⟩
  · simp
  · by_cases h : f0 = VK_FORMAT_UNDEFINED <;> simp [h]

/-- Witness for C10: an empty format list makes `compatibility` panic. -/
theorem compatibility_empty_formats_panics_witness :
    compatibility (fun _ => none) (fun m => m) exCaps [] [] = none :=
  (compatibility_empty_formats_panics (fun _ => none) (fun m => m)
    exCaps [] []).mpr rfl

/-- C6: reconfiguring a surface with an active configuration destroys its
fence synchronously, appends its `(device, semaphore, view set)` tuple to the
stale pool, and passes the old swapchain handle to the driver as the reuse
hint; after a successful return exactly one active configuration exists: a
fresh swapchain, a fresh fence created unsignaled, a fresh semaphore, and an
eagerly created view set of one view per image. -/
theorem configure_replaces_active_configuration :
    ∀ (s : WorldState) (o : ConfigOracle) (ssc : SurfaceSwapchain),
      s.active = some ssc →
      (configureSwapchain s o).oldHint = some ssc.swapchain ∧
      ssc.fence ∈ (configureSwapchain s o).state.destroyedFences ∧
      (configureSwapchain s o).state.staleViews =
        s.staleViews ++ [⟨ssc.dev, ssc.semaphore, ssc.viewsId⟩] ∧
      (o.ok = true → ∃ n : SurfaceSwapchain,
        (configureSwapchain s o).state.active = some n ∧
        n.fenceCreatedSignaled = false ∧
        s.fresh ≤ n.swapchain ∧ s.fresh ≤ n.fence ∧ s.fresh ≤ n.semaphore ∧
        s.fresh ≤ n.viewsId ∧
        (storeOf (configureSwapchain s o).state.viewStore n.viewsId).length =
          o.imageCount) ∧
      (o.ok = false → (configureSwapchain s o).state.active = none) := by
  intro s o ssc ha
  have htaken : takenState s =
      { s with
        active := none
        destroyedFences := ssc.fence :: s.destroyedFences
        staleViews := s.staleViews ++ [⟨ssc.dev, ssc.semaphore, ssc.viewsId⟩] } := by
    unfold takenState
    rw [ha]
  have hhint : (configureSwapchain s o).oldHint = some ssc.swapchain := by
    unfold configureSwapchain
    rcases ho : o.ok <;> simp [ha, ho]
  refine ⟨hhint, ?_, ?_, ?_, ?_⟩
  · rw [configureSwapchain_state]
    by_cases ho : o.ok = true
    · rw [if_pos ho]
      show ssc.fence ∈ (takenState s).destroyedFences
      rw [htaken]
      exact List.mem_cons_self _ _
    · rw [if_neg ho, htaken]
      exact List.mem_cons_self _ _
  · rw [configureSwapchain_state]
    by_cases ho : o.ok = true
    · rw [if_pos ho]
      show (takenState s).staleViews = _
      rw [htaken]
    · rw [if_neg ho, htaken]
  · intro ho
    rw [configureSwapchain_state, if_pos ho]
    have h1 : s.fresh ≤ (takenState s).fresh :=
      Nat.le_of_eq (takenState_fresh s).symm
    refine ⟨⟨(takenState s).fresh, o.dev, (takenState s).fresh + 1, false,
      (takenState s).fresh + 2, (takenState s).fresh + 3⟩, rfl, rfl,
      h1, le_trans h1 (Nat.le_add_right _ 1), le_trans h1 (Nat.le_add_right _ 2),
      le_trans h1 (Nat.le_add_right _ 3), ?_⟩
    show (storeOf (((takenState s).fresh + 3,
      (List.range o.imageCount).map (fun i => (takenState s).fresh + 4 + i))
        :: (takenState s).viewStore) ((takenState s).fresh + 3)).length = o.imageCount
    rw [storeOf_cons, if_pos rfl]
    simp
  · intro ho
    rw [configureSwapchain_state, if_neg (by simp [ho]), takenState_active]

/-- Witness for C6: reconfiguring the configured one-acquire surface destroys
fence 1, retires `(7, 2, 3)` into the stale pool, passes swapchain 0 as the
reuse hint, and installs a fresh unsignaled-fence configuration with a 3-view
set. -/
theorem configure_replaces_active_configuration_witness :
    (configureSwapchain exState2 exConfig2).oldHint = some 0 ∧
    (1 : Nat) ∈ (configureSwapchain exState2 exConfig2).state.destroyedFences ∧
    (∃ n : SurfaceSwapchain,
      (configureSwapchain exState2 exConfig2).state.active = some n ∧
      n.fenceCreatedSignaled = false ∧
      (storeOf (configureSwapchain exState2 exConfig2).state.viewStore
        n.viewsId).length = 3) := by
  have h := configure_replaces_active_configuration exState2 exConfig2
    ⟨0, 7, 1, false, 2, 3⟩ (by decide)
  obtain ⟨h1, h2, _, h4, _⟩ := h
  obtain ⟨n, hn1, hn2, _, _, _, _, hn7⟩ := h4 rfl
  exact ⟨h1, h2, ⟨n, hn1, hn2, hn7⟩⟩

/-- C7: on a reachable surface state, when the driver's next-image request
succeeds with an in-range index (the Vulkan contract: the index addresses one
of the chain's images, i.e. is below the view-set length) and the fence wait
succeeds, the returned `SurfaceImage` carries that index, the index is below
the current view-set length, and borrowing the image yields a view of the
current view set that has not been destroyed. -/
theorem acquire_returns_valid_index_and_view :
    ∀ (s : WorldState) (t : Nat) (o : AcquireOracle) (ssc : SurfaceSwapchain)
      (i : Nat) (sub : Bool),
      Reachable s → s.active = some ssc → o.driverResult = .ok (i, sub) →
      o.waitResult = .ok () →
      i < (storeOf s.viewStore ssc.viewsId).length →
      ∃ v : Nat,
        (Surface.acquireImage s t o).outcome =
          .ok ⟨i, ssc.viewsId⟩ (if sub then some .mk else none) ∧
        i < (storeOf (Surface.acquireImage s t o).state.viewStore
          ssc.viewsId).length ∧
        SurfaceImage.borrowView (Surface.acquireImage s t o).state.viewStore
          ⟨i, ssc.viewsId⟩ = some v ∧
        v ∉ (Surface.acquireImage s t o).state.destroyedViews := by
  intro s t o ssc i sub hreach ha hd hw hi
  obtain ⟨hout, -, -⟩ := acquireImage_ok ha hd hw
  have hstore : storeOf (Surface.acquireImage s t o).state.viewStore ssc.viewsId
      = storeOf s.viewStore ssc.viewsId := by
    rw [(acquireImage_state_fields s t o).2.1]
    exact clearStaleViews_storeOf_of_holder s ssc.viewsId (Or.inr ⟨ssc, ha, rfl⟩)
  have hlt : i < (storeOf (Surface.acquireImage s t o).state.viewStore
      ssc.viewsId).length := by rw [hstore]; exact hi
  obtain ⟨v, hv⟩ : ∃ v, (storeOf (Surface.acquireImage s t o).state.viewStore
      ssc.viewsId).get? i = some v :=
    ⟨_, List.get?_eq_get hlt⟩
  have hvmem : v ∈ storeOf (Surface.acquireImage s t o).state.viewStore
      ssc.viewsId := List.get?_mem hv
  have hwf : WF (Surface.acquireImage s t o).state :=
    wf_acquireImage (wf_reachable hreach) t o
  exact ⟨v, hout, hlt, hv, mem_storeOf_not_destroyed hwf hvmem⟩

/-- Witness for C7: acquiring index 0 on the freshly configured two-image
surface returns `SurfaceImage` 0 whose borrowed view is view 4, undestroyed. -/
theorem acquire_returns_valid_index_and_view_witness :
    ∃ v : Nat,
      (Surface.acquireImage exState1 100 exAcqOracle).outcome =
        .ok ⟨0, 3⟩ (if false then some .mk else none) ∧
      0 < (storeOf (Surface.acquireImage exState1 100 exAcqOracle).state.viewStore
        3).length ∧
      SurfaceImage.borrowView
        (Surface.acquireImage exState1 100 exAcqOracle).state.viewStore ⟨0, 3⟩ =
          some v ∧
      v ∉ (Surface.acquireImage exState1 100 exAcqOracle).state.destroyedViews :=
  acquire_returns_valid_index_and_view exState1 100 exAcqOracle
    ⟨0, 7, 1, false, 2, 3⟩ 0 false exState1_reachable (by decide) rfl rfl
    (by decide)

/-- C1: a `SurfaceImage` holds its own shared handle to the view set that was
active when it was acquired; on any reachable state, along any sequence of
surface operations (reconfigurations included) during which the caller keeps
holding the image, the contents of that view set never change and none of its
views is destroyed — the sweep only reclaims a stale entry when no holder
outside the surface remains. -/
theorem heldImage_view_set_stable :
    ∀ (s s' : WorldState) (img : SurfaceImage), Reachable s → img ∈ s.images →
      Relation.ReflTransGen (StepHolding img) s s' →
      storeOf s'.viewStore img.viewsId = storeOf s.viewStore img.viewsId ∧
      ∀ v ∈ storeOf s'.viewStore img.viewsId, v ∉ s'.destroyedViews := by
  intro s s' img hreach hmem hchain
  induction hchain with
  | refl =>
    exact ⟨rfl, fun v hv => mem_storeOf_not_destroyed (wf_reachable hreach) hv⟩
  | tail h1 h2 ih =>
    obtain ⟨ihs, _⟩ := ih
    have hreach_b := Relation.ReflTransGen.trans hreach
      (Relation.ReflTransGen.mono (fun _ _ h => h.1) h1)
    have hpres := step_preserves_held_store (wf_reachable hreach_b) h2.1 h2.2.1
    have hreach_c := hreach_b.tail h2.1
    exact ⟨hpres.trans ihs,
      fun v hv => mem_storeOf_not_destroyed (wf_reachable hreach_c) hv⟩

/-- Witness for C1: the image acquired under the first configuration still
sees views `[4, 5]` untouched after a reconfiguration while it is held. -/
theorem heldImage_view_set_stable_witness :
    storeOf exState3.viewStore 3 = storeOf exState2.viewStore 3 ∧
    ∀ v ∈ storeOf exState3.viewStore 3, v ∉ exState3.destroyedViews := by
  have h := heldImage_view_set_stable exState2 exState3 ⟨0, 3⟩
    exState2_reachable (by decide)
    (Relation.ReflTransGen.single
      ⟨SurfaceStep.configure exState2 exConfig2, by decide, by decide⟩)
  exact h

/-- C2 counterexample: in a pool state whose single stale entry has an empty
view list but a live external holder (reference count 2), one sweep removes
the entry from the pool — the `retain(|sv| !sv.2.is_empty())` pass keys on
emptiness, not on having been drained — without destroying its semaphore, so
an entry whose reference count shows an external holder is not left
untouched as the claim states. -/
theorem clear_stale_views_claim_counterexample :
    refCount c2CexState 7 = 2 ∧
    (⟨0, 5, 7⟩ : StaleEntry) ∈ c2CexState.staleViews ∧
    (clearStaleViews c2CexState).staleViews = [] ∧
    (clearStaleViews c2CexState).destroyedSems = [] ∧
    (clearStaleViews c2CexState).destroyedViews = [] := by
  refine ⟨by decide, by decide, by decide, by decide, by decide⟩

/-- C2 (amended): one run of `clear_stale_views` destroys the semaphore and
every view of exactly those stale entries whose view-set reference count is 1
(no holder outside the pool entry itself) and removes those entries from the
pool; every other entry *with a nonempty view list* is left untouched (pool
membership and view contents preserved) — an entry whose view list is empty
is dropped from the pool without destroying its semaphore; and within
`acquire_image` the sweep is applied before the driver's next-image request,
so its effects are present on every path, including the early error
returns. -/
theorem clear_stale_views_contract :
    ∀ s : WorldState,
      (∀ e ∈ s.staleViews, refCount s e.viewsId = 1 →
        e.sem ∈ (clearStaleViews s).destroyedSems ∧
        (∀ v ∈ storeOf s.viewStore e.viewsId,
          v ∈ (clearStaleViews s).destroyedViews) ∧
        e ∉ (clearStaleViews s).staleViews) ∧
      (∀ x, x ∈ (clearStaleViews s).destroyedSems ↔
        x ∈ s.destroyedSems ∨
          ∃ e ∈ s.staleViews, refCount s e.viewsId = 1 ∧ e.sem = x) ∧
      (∀ v, v ∈ (clearStaleViews s).destroyedViews ↔
        v ∈ s.destroyedViews ∨
          ∃ e ∈ s.staleViews, refCount s e.viewsId = 1 ∧
            v ∈ storeOf s.viewStore e.viewsId) ∧
      (∀ e ∈ s.staleViews, refCount s e.viewsId ≠ 1 →
        storeOf s.viewStore e.viewsId ≠ [] →
        e ∈ (clearStaleViews s).staleViews ∧
        storeOf (clearStaleViews s).viewStore e.viewsId =
          storeOf s.viewStore e.viewsId) ∧
      (∀ (t : Nat) (o : AcquireOracle),
        (Surface.acquireImage s t o).state.staleViews =
          (clearStaleViews s).staleViews ∧
        (Surface.acquireImage s t o).state.viewStore =
          (clearStaleViews s).viewStore ∧
        (Surface.acquireImage s t o).state.destroyedViews =
          (clearStaleViews s).destroyedViews ∧
        (Surface.acquireImage s t o).state.destroyedSems =
          (clearStaleViews s).destroyedSems) := by
  intro s
  refine ⟨?_, clearStaleViews_destroyedSems s, clearStaleViews_destroyedViews s,
    ?_, ?_⟩
  · intro e he h
    refine ⟨(clearStaleViews_destroyedSems s e.sem).mpr
        (Or.inr ⟨e, he, h, rfl⟩),
      fun v hv => (clearStaleViews_destroyedViews s v).mpr
        (Or.inr ⟨e, he, h, hv⟩), ?_⟩
    intro hmem
    exact ((clearStaleViews_stale_mem s e).mp hmem).2.1 h
  · intro e he h1 h2
    refine ⟨(clearStaleViews_stale_mem s e).mpr ⟨he, h1, h2⟩, ?_⟩
    rw [clearStaleViews_storeOf,
      if_neg (fun hx => h1 ((exists_reclaim_iff s e he).mp hx))]
  · intro t o
    obtain ⟨hst, hvs, hdv, hds, -, -, -⟩ := acquireImage_state_fields s t o
    exact ⟨hst, hvs, hdv, hds⟩

/-- Witness for C2 (amended): after the held image of the retired two-image
configuration is dropped, one sweep destroys semaphore 2 and view 4 and
removes entry `(7, 2, 3)` from the pool. -/
theorem clear_stale_views_contract_witness :
    (2 : Nat) ∈ (clearStaleViews exDropState).destroyedSems ∧
    (4 : Nat) ∈ (clearStaleViews exDropState).destroyedViews ∧
    (⟨7, 2, 3⟩ : StaleEntry) ∉ (clearStaleViews exDropState).staleViews := by
  have h := (clear_stale_views_contract exDropState).1 ⟨7, 2, 3⟩
    (by decide) (by decide)
  exact ⟨h.1, h.2.1 4 (by decide), h.2.2⟩
